import Mathlib

/-!
Verification of the chess-tools game-analysis pipeline
(`src/analyse_pgn_files.py`) against its specification.

The Python source is shallowly embedded below.  Python `str` values are
modelled as Lean `String`s, with the `str.split` / `str.strip` / `int(...)`
primitives re-implemented character-by-character over `String.data` so that
all definitions are executable by the kernel.  Python `float` arithmetic is
modelled over the real numbers.  The external chess engine and the opening
book are external collaborators: their per-position answers are supplied as
inputs (`PlyInput`), and a raised Python exception is modelled as the
`Except.error` branch.  The output TSV file is modelled as a list of lines
(`Option (List String)`, `none` meaning the file does not exist).
-/

namespace ChessTools

/-! ### Python string primitives -/

/-- Model of Python `str.strip()`: drop whitespace from both ends. -/
def stripChars (l : List Char) : List Char :=
  ((l.dropWhile Char.isWhitespace).reverse.dropWhile Char.isWhitespace).reverse

/-- Model of Python `str.split(sep)` for a one-character separator:
`n` separators produce `n+1` (possibly empty) pieces. -/
def splitChars (sep : Char) : List Char → List (List Char)
  | [] => [[]]
  | c :: cs =>
    match splitChars sep cs with
    | [] => [[c]]
    | p :: ps => if c = sep then [] :: p :: ps else (c :: p) :: ps

/-- Helper of `pyInt`: numeric value of a digit string. -/
def digitsVal (l : List Char) : Nat :=
  l.foldl (fun a c => a * 10 + (c.toNat - '0'.toNat)) 0

/-- Model of Python `s.split(sep)` on `String`s. -/
def pySplit (sep : Char) (s : String) : List String :=
  (splitChars sep s.data).map (fun l => ⟨l⟩)

/-- Model of Python `s.strip()` on `String`s. -/
def pyStrip (s : String) : String := ⟨stripChars s.data⟩

/-- Model of Python `c in s` membership test for a single character. -/
def pyContains (c : Char) (s : String) : Bool := s.data.contains c

/-- Model of Python `int(s)`: surrounding whitespace is allowed, then an
optional sign followed by at least one decimal digit; anything else raises
`ValueError`, modelled as `Except.error`.  (Underscore digit separators and
non-ASCII digits, which CPython also accepts, are not modelled; no PGN
header in the claims uses them.) -/
def pyInt (s : String) : Except Unit Int :=
  match stripChars s.data with
  | [] => .error ()
  | c :: rest =>
    let p : Bool × List Char :=
      if c = '-' then (true, rest)
      else if c = '+' then (false, rest)
      else (false, c :: rest)
    if p.2 ≠ [] ∧ p.2.all Char.isDigit then
      .ok (if p.1 then -(digitsVal p.2 : Int) else (digitsVal p.2 : Int))
    else .error ()

/-! ### Move classification (source: `classify_move`, lines 57-76) -/

/-- The five classification buckets returned by `classify_move` (the source
returns the strings 'best', 'good', 'inaccuracy', 'mistake', 'blunder'). -/
inductive Classification where
  | best | good | inaccuracy | mistake | blunder
deriving DecidableEq

/-- Source `classify_move(eval_loss)`: inclusive upper bounds, first match
wins. -/
def classify_move (eval_loss : Int) : Classification :=
  if eval_loss ≤ 10 then .best
  else if eval_loss ≤ 25 then .good
  else if eval_loss ≤ 50 then .inaccuracy
  else if eval_loss ≤ 100 then .mistake
  else .blunder

/-! ### Accuracy formulas (source lines 79-132), floats modelled as reals -/

/-- Source `centipawns_to_win_percent(centipawns)`: the Lichess logistic
win-percentage curve. -/
noncomputable def centipawns_to_win_percent (centipawns : ℤ) : ℝ :=
  50 + 50 * (2 / (1 + Real.exp (-0.00368208 * (centipawns : ℝ))) - 1)

/-- Source `calculate_move_accuracy(win_percent_before, win_percent_after)`:
exponential accuracy curve clamped to `[0, 100]` by `max(0, min(100, ·))`. -/
noncomputable def calculate_move_accuracy
    (win_percent_before win_percent_after : ℝ) : ℝ :=
  let win_percent_loss := win_percent_before - win_percent_after
  let accuracy := 103.1668 * Real.exp (-0.04354 * win_percent_loss) - 3.1669
  max 0 (min 100 accuracy)

/-- Source `calculate_accuracy(eval_pairs)`: average of per-move accuracies,
`0.0` for an empty list. -/
noncomputable def calculate_accuracy (eval_pairs : List (Int × Int)) : ℝ :=
  if eval_pairs = [] then 0.0
  else
    (eval_pairs.map (fun pr =>
      calculate_move_accuracy
        (centipawns_to_win_percent pr.1)
        (centipawns_to_win_percent pr.2))).sum / (eval_pairs.length : ℝ)

/-- Model of Python `round(x, 1)` used on the final accuracies (the float
round-half-to-even tie rule is approximated by Mathlib `round`; no claim
depends on the tie case). -/
noncomputable def round1 (x : ℝ) : ℝ := ((round (x * 10) : ℤ) : ℝ) / 10

/-! ### Engine scores (source lines 135-177) -/

/-- An engine score from White's perspective (the source always converts via
`info['score'].white()`): either a plain centipawn value or a mate
distance. -/
inductive Score where
  | cp (v : Int)
  | mate (d : Int)
deriving DecidableEq

/-- Model of python-chess `score.mate()`: the mate distance, or `none` for a
centipawn score. -/
def Score.mateOf : Score → Option Int
  | .cp _ => none
  | .mate d => some d

/-- Model of python-chess `score.score()` (no `mate_score` argument): the
centipawn value, or `none` for a mate score. -/
def Score.scoreOpt : Score → Option Int
  | .cp v => some v
  | .mate _ => none

/-- Modelled from the spec: python-chess `score.score(mate_score=m)` as the
spec describes the reference behaviour at the after-move evaluation point —
a flat `m`-centipawn ceiling substituted for any mate score, without a
distance penalty, signed by the side delivering mate. -/
def Score.scoreWithMateScore (s : Score) (mateScore : Int) : Int :=
  match s with
  | .cp v => v
  | .mate d => if d > 0 then mateScore else -mateScore

/-- Source `convert_mate_to_centipawns(score, mate_distance)` (lines
135-161): distance-aware mate penalty of 50 centipawns per move below a
base of 10000, signed; a `None` distance returns the plain centipawn
score (the source returns `score.score()`, an `int` whenever this branch
is reached; `getD 0` only discharges the impossible `None`). -/
def convert_mate_to_centipawns (score : Score) (mate_distance : Option Int) : Int :=
  match mate_distance with
  | none => score.scoreOpt.getD 0
  | some d =>
    let base_mate_value : Int := 10000
    let distance_penalty : Int := |d| * 50
    let mate_value := base_mate_value - distance_penalty
    if d > 0 then mate_value else -mate_value

/-- Source `get_eval_centipawns(info)` (lines 164-176): mate scores go
through `convert_mate_to_centipawns`, centipawn scores are returned as
is. -/
def get_eval_centipawns (s : Score) : Int :=
  match s.mateOf with
  | some m => convert_mate_to_centipawns s (some m)
  | none => s.scoreOpt.getD 0

/-! ### PGN headers (source lines 229-278) -/

/-- The PGN headers `analyse_game` reads; `none` models an absent header
(`headers.get(k, default)` supplies the default). -/
structure Headers where
  white : Option String
  black : Option String
  result : Option String
  eco : Option String
  whiteElo : Option String
  blackElo : Option String
  timeControl : Option String

/-- Source lines 234-242: map the `Result` header to `1 / -1 / 0`, treating
unknown or ongoing (`"*"` default) as a draw. -/
def parse_result (resultH : Option String) : Int :=
  let result_str := resultH.getD "*"
  if result_str = "1-0" then 1
  else if result_str = "0-1" then -1
  else if result_str = "1/2-1/2" then 0
  else 0

/-- Source lines 247-255: both Elo headers are converted by `int(...)`
inside a single `try`; a `ValueError` from either conversion sends control
to the one `except` branch, which sets **both** ratings to 0. -/
def parse_elos (whiteEloH blackEloH : Option String) : Int × Int :=
  let white_elo := whiteEloH.getD "0"
  let black_elo := blackEloH.getD "0"
  match pyInt white_elo with
  | .error _ => (0, 0)
  | .ok w =>
    match pyInt black_elo with
    | .error _ => (0, 0)
    | .ok b => (w, b)

/-- Source lines 258-278: classify the `TimeControl` header into
bullet/blitz/rapid/classical/daily/unknown. -/
def parse_time_control (tcH : Option String) : String :=
  let tc := tcH.getD ""
  if tc ≠ "" ∧ tc ≠ "-" then
    if pyContains '/' tc then "daily"
    else
      match pyInt ((pySplit '+' tc).headD "") with
      | .error _ => "unknown"
      | .ok base_time =>
        if base_time < 180 then "bullet"
        else if base_time ≤ 300 then "blitz"
        else if base_time ≤ 3600 then "rapid"
        else "classical"
  else "unknown"

/-! ### GameStats (source dataclass, lines 28-54) -/

/-- Output record of one game's analysis, mirroring the source dataclass
field for field (accuracies are floats, modelled as reals). -/
structure GameStats where
  filename : String
  white_player : String
  black_player : String
  white_elo : Int
  black_elo : Int
  time_control : String
  opening : String
  result : Int
  white_accuracy : ℝ
  white_best_moves : Nat
  white_good_moves : Nat
  white_inaccuracies : Nat
  white_mistakes : Nat
  white_blunders : Nat
  white_book_moves : Nat
  white_total_moves : Nat
  black_accuracy : ℝ
  black_best_moves : Nat
  black_good_moves : Nat
  black_inaccuracies : Nat
  black_mistakes : Nat
  black_blunders : Nat
  black_book_moves : Nat
  black_total_moves : Nat

/-- The placeholder record the source builds twice verbatim (lines 227 and
404): the filename, empty player names, `"unknown"` strings and zeroes
everywhere else. -/
def placeholderStats (filename : String) : GameStats :=
  ⟨filename, "", "", 0, 0, "unknown", "unknown", 0,
   0, 0, 0, 0, 0, 0, 0, 0,
   0, 0, 0, 0, 0, 0, 0, 0⟩

/-! ### The per-game analysis (source `analyse_game`, lines 208-404) -/

/-- External-world inputs consumed at one ply of the move loop: the outcome
of the opening-book membership check (`True` iff some book entry for the
current position equals the played move; an `IndexError` from `find_all`
leaves it `False`), and the two engine evaluations, each of which may raise
(`Except.error`). -/
structure PlyInput where
  inBook : Bool
  infoBefore : Except Unit Score
  infoAfter : Except Unit Score

/-- A parsed game record: its headers and, per mainline ply, the external
inputs the loop consumes. -/
structure GameInput where
  headers : Headers
  plies : List PlyInput

/-- Outcome of `open(pgn_path)` + `chess.pgn.read_game(f)`: the read may
raise, return `None`, or produce a game. -/
inductive PgnReadResult where
  | raise
  | noGame
  | game (g : GameInput)

/-- External-world behaviour for one `analyse_game` call. `bookProvided`
models `book_path and Path(book_path).exists()`; `bookOpenFails` models
`chess.polyglot.open_reader` raising; `engineStartFails` models
`SimpleEngine.popen_uci` raising. -/
structure World where
  readResult : PgnReadResult
  bookProvided : Bool
  bookOpenFails : Bool
  engineStartFails : Bool

/-- Resource bookkeeping observed during one `analyse_game` call: whether
the engine process was launched, how many times `engine.quit()` ran,
whether the book reader was opened, how many times it was closed. -/
structure RunState where
  engineStarted : Bool
  engineQuits : Nat
  bookOpened : Bool
  bookCloses : Nat
deriving DecidableEq

/-- Per-colour accumulator of the move loop: the five classification
counters (the source's dict), the eval-pair list and the book-move
counter. -/
structure ColorAcc where
  best : Nat
  good : Nat
  inaccuracy : Nat
  mistake : Nat
  blunder : Nat
  eval_pairs : List (Int × Int)
  book_moves : Nat

/-- Projection of a colour's counter for one classification bucket. -/
def clsCount (c : ColorAcc) : Classification → Nat
  | .best => c.best
  | .good => c.good
  | .inaccuracy => c.inaccuracy
  | .mistake => c.mistake
  | .blunder => c.blunder

/-- Sum of the five classification counters of one colour. -/
def clsSum (c : ColorAcc) : Nat :=
  c.best + c.good + c.inaccuracy + c.mistake + c.blunder

/-- Source lines 361-365: append the eval pair and bump the counter named
by the classification. -/
def addMove (c : ColorAcc) (cls : Classification) (pr : Int × Int) : ColorAcc :=
  let c1 := { c with eval_pairs := c.eval_pairs ++ [pr] }
  match cls with
  | .best => { c1 with best := c1.best + 1 }
  | .good => { c1 with good := c1.good + 1 }
  | .inaccuracy => { c1 with inaccuracy := c1.inaccuracy + 1 }
  | .mistake => { c1 with mistake := c1.mistake + 1 }
  | .blunder => { c1 with blunder := c1.blunder + 1 }

/-- Whole state of the move loop (both colours plus `move_number`). -/
structure LoopAcc where
  white : ColorAcc
  black : ColorAcc
  move_number : Nat

/-- Initial loop state (all counters zero, both pair lists empty). -/
def initAcc : LoopAcc :=
  ⟨⟨0, 0, 0, 0, 0, [], 0⟩, ⟨0, 0, 0, 0, 0, [], 0⟩, 0⟩

/-- Loop invariant: for each colour, the classification counters sum to the
number of recorded eval pairs. -/
def InvAcc (acc : LoopAcc) : Prop :=
  clsSum acc.white = acc.white.eval_pairs.length ∧
  clsSum acc.black = acc.black.eval_pairs.length

/-- One iteration of the source move loop (lines 312-365).  `bookOpened`
tells whether a `book_reader` is live (`if book_reader:`), so the book
check only fires then.  A book move bumps the mover's book counter and
skips the engine.  Otherwise the position is evaluated before the move
(mate-aware via `get_eval_centipawns`), the move is pushed, the position is
evaluated after the move (`score(mate_score=10000)`), the loss is formed
from the mover's side, clamped at 0, classified, and recorded for the
mover.  An engine `Except.error` propagates (the Python exception). -/
def loopStep (bookOpened : Bool) (acc : LoopAcc) (ply : PlyInput) :
    Except Unit LoopAcc :=
  let move_number := acc.move_number + 1
  let is_white_move := move_number % 2 == 1
  let in_book := bookOpened && ply.inBook
  if in_book then
    .ok (if is_white_move then
          { acc with move_number := move_number,
                     white := { acc.white with book_moves := acc.white.book_moves + 1 } }
        else
          { acc with move_number := move_number,
                     black := { acc.black with book_moves := acc.black.book_moves + 1 } })
  else
    match ply.infoBefore with
    | .error e => .error e
    | .ok info_before =>
      match ply.infoAfter with
      | .error e => .error e
      | .ok info_after =>
        let eval_before := get_eval_centipawns info_before
        let eval_after := Score.scoreWithMateScore info_after 10000
        let eval_loss :=
          if is_white_move then eval_before - eval_after
          else eval_after - eval_before
        let eval_loss := max 0 eval_loss
        let classification := classify_move eval_loss
        .ok (if is_white_move then
              { acc with move_number := move_number,
                         white := addMove acc.white classification (eval_before, eval_after) }
            else
              { acc with move_number := move_number,
                         black := addMove acc.black classification (-eval_before, -eval_after) })

/-- The source `for move in game.mainline_moves():` loop, folding
`loopStep` and propagating a raised exception. -/
def moveLoop (bookOpened : Bool) : List PlyInput → LoopAcc → Except Unit LoopAcc
  | [], acc => .ok acc
  | p :: ps, acc =>
    match loopStep bookOpened acc p with
    | .error e => .error e
    | .ok acc' => moveLoop bookOpened ps acc'

/-- Body of the source `try:` block of `analyse_game` (lines 221-400),
together with the resource bookkeeping.  Note that on an exception raised
inside the move loop the function returns with `engineQuits = 0`: the
source has no `finally`, so `engine.quit()` on line 367 is skipped when
control jumps to the outer `except`. -/
noncomputable def analyse_game_body (filename : String) (w : World) :
    Except Unit GameStats × RunState :=
  match w.readResult with
  | .raise => (.error (), ⟨false, 0, false, 0⟩)
  | .noGame => (.ok (placeholderStats filename), ⟨false, 0, false, 0⟩)
  | .game g =>
    let white_player := g.headers.white.getD "unknown"
    let black_player := g.headers.black.getD "unknown"
    let result := parse_result g.headers.result
    let opening := g.headers.eco.getD "unknown"
    let elos := parse_elos g.headers.whiteElo g.headers.blackElo
    let time_control := parse_time_control g.headers.timeControl
    if w.bookProvided && w.bookOpenFails then
      (.error (), ⟨false, 0, false, 0⟩)
    else
      let bookOpened := w.bookProvided
      if w.engineStartFails then
        (.error (), ⟨false, 0, bookOpened, 0⟩)
      else
        match moveLoop bookOpened g.plies initAcc with
        | .error e => (.error e, ⟨true, 0, bookOpened, 0⟩)
        | .ok acc =>
          let white_accuracy := calculate_accuracy acc.white.eval_pairs
          let black_accuracy := calculate_accuracy acc.black.eval_pairs
          (.ok
            { filename := filename
              white_player := white_player
              black_player := black_player
              white_elo := elos.1
              black_elo := elos.2
              time_control := time_control
              opening := opening
              result := result
              white_accuracy := round1 white_accuracy
              white_best_moves := acc.white.best
              white_good_moves := acc.white.good
              white_inaccuracies := acc.white.inaccuracy
              white_mistakes := acc.white.mistake
              white_blunders := acc.white.blunder
              white_book_moves := acc.white.book_moves
              white_total_moves := acc.white.eval_pairs.length + acc.white.book_moves
              black_accuracy := round1 black_accuracy
              black_best_moves := acc.black.best
              black_good_moves := acc.black.good
              black_inaccuracies := acc.black.inaccuracy
              black_mistakes := acc.black.mistake
              black_blunders := acc.black.blunder
              black_book_moves := acc.black.book_moves
              black_total_moves := acc.black.eval_pairs.length + acc.black.book_moves },
           ⟨true, 1, bookOpened, if bookOpened then 1 else 0⟩)

/-- Source `analyse_game` (lines 208-404): the `try/except` wrapper — any
exception from the body is caught and replaced by the placeholder record
(the `RunState` reports what actually happened to the resources). -/
noncomputable def analyse_game (filename : String) (w : World) :
    GameStats × RunState :=
  match analyse_game_body filename w with
  | (.ok gs, st) => (gs, st)
  | (.error _, st) => (placeholderStats filename, st)

/-! ### Orchestration (source lines 179-205 and 413-511) -/

/-- Source `load_processed_files` (lines 179-205): skip the first line of
the existing output file (`next(f)`), take the first tab-separated column
of every further line, strip it, and keep the non-empty names.  A missing
file yields the empty set.  (Membership in the returned list models
membership in the Python set.) -/
def load_processed_files (output : Option (List String)) : List String :=
  match output with
  | none => []
  | some lines =>
    ((lines.drop 1).map (fun line => pyStrip ((pySplit '\t' line).headD ""))).filter
      (fun f => f ≠ "")

/-- The header line written by `analyse_all_games` (lines 484-488), without
the terminating newline (the file is modelled as a list of lines). -/
def header_line : String :=
  "filename\twhite_player\tblack_player\twhite_elo\tblack_elo\ttime_control\topening\tresult\t" ++
  "white_accuracy\twhite_best_moves\twhite_good_moves\twhite_inaccuracies\t" ++
  "white_mistakes\twhite_blunders\twhite_book_moves\twhite_total_moves\t" ++
  "black_accuracy\tblack_best_moves\tblack_good_moves\tblack_inaccuracies\t" ++
  "black_mistakes\tblack_blunders\tblack_book_moves\tblack_total_moves"

/-- One output row (lines 499-506): the f-string starts with
`{stats.filename}\t`; the remaining 23 fields are serialized by
`serializeTail`, kept abstract because their text (in particular Python
float formatting of the accuracies) never influences the resume logic,
which reads only column 1. -/
def formatRow (serializeTail : GameStats → String) (stats : GameStats) : String :=
  stats.filename ++ "\t" ++ serializeTail stats

/-- Source `analyse_all_games` (lines 413-511) as a function from the
existing output file to the new one.  `all_pgn_files` is the sorted
directory listing (file names), `results` gives the `GameStats` each worker
returns for a name (`analyse_game` never raises), and `schedule` models the
completion order of `imap_unordered` (any permutation).  The source
returns early when no PGN files are found or all are already processed;
otherwise it creates the header only if the file did not exist and appends
one row per completed game. -/
def analyse_all_games (serializeTail : GameStats → String)
    (results : String → GameStats) (schedule : List String → List String)
    (all_pgn_files : List String) (output : Option (List String)) :
    Option (List String) :=
  if all_pgn_files = [] then output
  else
    let processed := load_processed_files output
    let pgn_files := all_pgn_files.filter (fun f => decide (f ∉ processed))
    if pgn_files = [] then output
    else
      let withHeader : List String :=
        match output with
        | none => [header_line]
        | some lines => lines
      some (withHeader ++
        (schedule pgn_files).map (fun n => formatRow serializeTail (results n)))

/-- Headers record with every header absent (defaults everywhere). -/
def emptyHeaders : Headers := ⟨none, none, none, none, none, none, none⟩

/-- A world in which the engine starts but the very first engine evaluation
raises: one non-book ply whose `engine.analyse` calls fail. -/
def engineCrashWorld : World :=
  ⟨.game ⟨emptyHeaders, [⟨false, .error (), .error ()⟩]⟩, false, false, false⟩

/-- A world in which analysis succeeds trivially (a game with no moves). -/
def emptyGameWorld : World :=
  ⟨.game ⟨emptyHeaders, []⟩, false, false, false⟩

/-! ### Helper lemmas -/

/-- The signed closed form of the mate branch of
`convert_mate_to_centipawns`. -/
theorem convert_mate_formula (s : Score) (d : ℤ) (hd : d ≠ 0) :
    convert_mate_to_centipawns s (some d) = d.sign * (10000 - 50 * |d|) := by
  simp only [convert_mate_to_centipawns]
  rcases lt_trichotomy d 0 with h | h | h
  · rw [if_neg (by omega), Int.sign_eq_neg_one_iff_neg.mpr h, abs_of_neg h]; ring
  · exact absurd h hd
  · rw [if_pos (by omega), Int.sign_eq_one_iff_pos.mpr h, abs_of_pos h]; ring

/-! ### Claim theorems -/

/-- C10: for every nonzero mate distance `d`, `convert_mate_to_centipawns`
returns `sign(d) * (10000 - 50*|d|)` with no clamping; the result's sign
agrees with the side delivering mate exactly on `1 ≤ |d| ≤ 199` (positive
product with `d`), while `|d| ≥ 200` gives a zero or sign-inverted value;
in particular mate-in-201 for White yields `-50`. -/
theorem mate_conversion_unclamped :
    (∀ (s : Score) (d : ℤ), d ≠ 0 →
      convert_mate_to_centipawns s (some d) = d.sign * (10000 - 50 * |d|))
    ∧ (∀ (s : Score) (d : ℤ), 1 ≤ |d| → |d| ≤ 199 →
        0 < convert_mate_to_centipawns s (some d) * d)
    ∧ (∀ (s : Score) (d : ℤ), 200 ≤ |d| →
        convert_mate_to_centipawns s (some d) * d ≤ 0)
    ∧ convert_mate_to_centipawns (Score.cp 0) (some 201) = -50 := by
  refine ⟨fun s d hd => convert_mate_formula s d hd, ?_, ?_, by decide⟩
  · intro s d h1 h2
    simp only [convert_mate_to_centipawns]
    rcases lt_trichotomy d 0 with h | h | h
    · rw [if_neg (by omega), abs_of_neg h] at *
      have hd1 : -199 ≤ d := by omega
      nlinarith
    · simp [h] at h1
    · rw [if_pos (by omega), abs_of_pos h] at *
      nlinarith
  · intro s d h1
    simp only [convert_mate_to_centipawns]
    rcases lt_trichotomy d 0 with h | h | h
    · rw [if_neg (by omega), abs_of_neg h] at *
      nlinarith
    · simp [h]
    · rw [if_pos (by omega), abs_of_pos h] at *
      nlinarith

/-- Witness for C10 at mate distance 1. -/
theorem mate_conversion_unclamped_witness :
    (1 : ℤ) ≠ 0 ∧
      convert_mate_to_centipawns (Score.cp 0) (some 1) =
        Int.sign 1 * (10000 - 50 * |(1 : ℤ)|) :=
  ⟨by decide, mate_conversion_unclamped.1 (Score.cp 0) 1 (by decide)⟩

/-- C4: mate scores are normalized asymmetrically at the two evaluation
points of one move.  The before-move evaluation (`get_eval_centipawns`)
applies the distance penalty `sign(d) * (10000 - 50*|d|)` (so distance `+1`
gives `9950` and `-3` gives `-9850`), while the after-move evaluation
(`score(mate_score=10000)`) substitutes a flat signed `10000` ceiling;
the move loop records exactly those two values, as the eval pair of the
concrete ply (mate-in-1 before, mate-in-5 after) shows. -/
theorem mate_policy_asymmetry :
    (∀ d : ℤ, d ≠ 0 →
      get_eval_centipawns (Score.mate d) = d.sign * (10000 - 50 * |d|))
    ∧ get_eval_centipawns (Score.mate 1) = 9950
    ∧ get_eval_centipawns (Score.mate (-3)) = -9850
    ∧ (∀ d : ℤ, Score.scoreWithMateScore (Score.mate d) 10000 =
        if d > 0 then 10000 else -10000)
    ∧ (∃ acc', loopStep false initAcc ⟨false, .ok (.mate 1), .ok (.mate 5)⟩ = .ok acc'
        ∧ acc'.white.eval_pairs = [(9950, 10000)]) := by
  refine ⟨fun d hd => convert_mate_formula (Score.mate d) d hd, by decide, by decide,
    fun d => rfl, ⟨_, rfl, by decide⟩⟩

/-- Witness for C4 at mate distance `-3`. -/
theorem mate_policy_asymmetry_witness :
    (-3 : ℤ) ≠ 0 ∧
      get_eval_centipawns (Score.mate (-3)) =
        Int.sign (-3) * (10000 - 50 * |(-3 : ℤ)|) :=
  ⟨by decide, mate_policy_asymmetry.1 (-3) (by decide)⟩

/-- C8: the win-percentage curve satisfies `winPercent(0) = 50`, is strictly
increasing in the centipawn argument, and always lies strictly between 0
and 100. -/
theorem win_percent_curve :
    centipawns_to_win_percent 0 = 50
    ∧ (∀ a b : ℤ, a < b →
        centipawns_to_win_percent a < centipawns_to_win_percent b)
    ∧ (∀ cp : ℤ, 0 < centipawns_to_win_percent cp ∧
        centipawns_to_win_percent cp < 100) := by
  refine ⟨?_, ?_, ?_⟩
  · simp [centipawns_to_win_percent, Real.exp_zero]
    norm_num
  · intro a b hab
    unfold centipawns_to_win_percent
    have hc : (a : ℝ) < (b : ℝ) := by exact_mod_cast hab
    have h1 : Real.exp (-0.00368208 * (b : ℝ)) < Real.exp (-0.00368208 * (a : ℝ)) :=
      Real.exp_lt_exp.mpr (by nlinarith)
    have h2 : 0 < Real.exp (-0.00368208 * (a : ℝ)) := Real.exp_pos _
    have h3 : 0 < Real.exp (-0.00368208 * (b : ℝ)) := Real.exp_pos _
    have h4 : 2 / (1 + Real.exp (-0.00368208 * (a : ℝ))) <
        2 / (1 + Real.exp (-0.00368208 * (b : ℝ))) :=
      div_lt_div_of_pos_left (by norm_num) (by linarith) (by linarith)
    linarith
  · intro cp
    unfold centipawns_to_win_percent
    have h2 : 0 < Real.exp (-0.00368208 * (cp : ℝ)) := Real.exp_pos _
    have h4 : 0 < 2 / (1 + Real.exp (-0.00368208 * (cp : ℝ))) := by positivity
    have h5 : 2 / (1 + Real.exp (-0.00368208 * (cp : ℝ))) < 2 := by
      rw [div_lt_iff₀ (by linarith)]; nlinarith
    constructor <;> nlinarith

/-- Witness for C8's strict monotonicity at `0 < 1`. -/
theorem win_percent_curve_witness :
    (0 : ℤ) < 1 ∧ centipawns_to_win_percent 0 < centipawns_to_win_percent 1 :=
  ⟨by decide, win_percent_curve.2.1 0 1 (by decide)⟩

/-- C7 counterexample: `moveAccuracy(w, w)` is not 100 — at `w = 50` the
pre-clamp value is `103.1668 - 3.1669 = 99.9999`, strictly below 100, so
the clamped accuracy at zero loss is `99.9999`, refuting both
`moveAccuracy(w, w) == 100` and "loss ≤ 0 yields accuracy 100". -/
theorem move_accuracy_no_loss_counterexample :
    calculate_move_accuracy 50 50 ≠ 100 := by
  have hdef : calculate_move_accuracy 50 50 =
      max 0 (min 100 (103.1668 * Real.exp (-0.04354 * ((50 : ℝ) - 50)) - 3.1669)) := rfl
  have he : Real.exp (-0.04354 * ((50 : ℝ) - 50)) = 1 := by
    norm_num [Real.exp_zero]
  rw [hdef, he]
  norm_num [min_def, max_def]

/-- C7 amended: `moveAccuracy(w, w) = 99.9999` exactly (the constants give
`103.1668 - 3.1669 = 99.9999`, just under 100), and whenever
`winBefore ≤ winAfter` (loss ≤ 0) the clamped accuracy lies in
`[99.9999, 100]`. -/
theorem move_accuracy_no_loss_amended :
    (∀ w : ℝ, calculate_move_accuracy w w = 99.9999)
    ∧ (∀ wb wa : ℝ, wb ≤ wa →
        99.9999 ≤ calculate_move_accuracy wb wa ∧
        calculate_move_accuracy wb wa ≤ 100) := by
  constructor
  · intro w
    have hdef : calculate_move_accuracy w w =
        max 0 (min 100 (103.1668 * Real.exp (-0.04354 * (w - w)) - 3.1669)) := rfl
    have he : Real.exp (-0.04354 * (w - w)) = 1 := by
      rw [sub_self, mul_zero, Real.exp_zero]
    rw [hdef, he]
    norm_num [min_def, max_def]
  · intro wb wa h
    have hdef : calculate_move_accuracy wb wa =
        max 0 (min 100 (103.1668 * Real.exp (-0.04354 * (wb - wa)) - 3.1669)) := rfl
    have h0 : (0 : ℝ) ≤ -0.04354 * (wb - wa) := by nlinarith
    have h1 : 1 ≤ Real.exp (-0.04354 * (wb - wa)) := Real.one_le_exp h0
    have h2 : (99.9999 : ℝ) ≤ 103.1668 * Real.exp (-0.04354 * (wb - wa)) - 3.1669 := by
      nlinarith
    rw [hdef]
    constructor
    · exact le_trans (le_min (by norm_num) h2) (le_max_right _ _)
    · exact max_le (by norm_num) (min_le_left _ _)

/-- Witness for the amended C7 at `winBefore = 50 ≤ 51 = winAfter`. -/
theorem move_accuracy_no_loss_amended_witness :
    (50 : ℝ) ≤ 51 ∧
      (99.9999 ≤ calculate_move_accuracy 50 51 ∧
        calculate_move_accuracy 50 51 ≤ 100) :=
  ⟨by norm_num, move_accuracy_no_loss_amended.2 50 51 (by norm_num)⟩

/-- C9 counterexample: `BlackElo = "?"` is unparsable even though
`WhiteElo = "1500"` parses, yet the shared `except ValueError` handler
resets *both* ratings to 0 — the fields do not default independently. -/
theorem elo_parse_not_independent :
    pyInt "1500" = .ok 1500 ∧ parse_elos (some "1500") (some "?") = (0, 0) :=
  ⟨rfl, rfl⟩

/-- C9 amended: both rating headers are converted inside one `try`: if
either conversion raises `ValueError`, both ratings are set to 0 (so an
unparsable header yields 0 rather than raising, but also resets the other
player's successfully parsed rating); only when both parse does each field
get its own parsed value. -/
theorem elo_parse_joint_default :
    (∀ wh bl : Option String,
      (pyInt (wh.getD "0") = .error () ∨ pyInt (bl.getD "0") = .error ()) →
      parse_elos wh bl = (0, 0))
    ∧ (∀ (wh bl : Option String) (x y : ℤ),
        pyInt (wh.getD "0") = .ok x → pyInt (bl.getD "0") = .ok y →
        parse_elos wh bl = (x, y)) := by
  constructor
  · intro wh bl h
    rcases hw : pyInt (wh.getD "0") with e | x
    · simp [parse_elos, hw]
    · rcases hb : pyInt (bl.getD "0") with e | y
      · simp [parse_elos, hw, hb]
      · rcases h with h | h
        · rw [hw] at h; cases h
        · rw [hb] at h; cases h
  · intro wh bl x y hx hy
    simp [parse_elos, hx, hy]

/-- Witness for the amended C9: `WhiteElo = "?"` fails to parse, so both
ratings come back 0. -/
theorem elo_parse_joint_default_witness :
    pyInt ((some "?").getD "0") = .error () ∧
      parse_elos (some "?") (some "1500") = (0, 0) :=
  ⟨rfl, elo_parse_joint_default.1 (some "?") (some "1500") (Or.inl rfl)⟩

/-- Adding a classified move bumps the classification sum by one. -/
theorem clsSum_addMove (c : ColorAcc) (cls : Classification) (pr : Int × Int) :
    clsSum (addMove c cls pr) = clsSum c + 1 := by
  cases cls <;> simp [addMove, clsSum] <;> omega

/-- Adding a classified move appends exactly its eval pair. -/
theorem pairs_addMove (c : ColorAcc) (cls : Classification) (pr : Int × Int) :
    (addMove c cls pr).eval_pairs = c.eval_pairs ++ [pr] := by
  cases cls <;> rfl

/-- Adding a classified move leaves the book counter unchanged. -/
theorem book_addMove (c : ColorAcc) (cls : Classification) (pr : Int × Int) :
    (addMove c cls pr).book_moves = c.book_moves := by
  cases cls <;> rfl

/-- Adding a classified move bumps exactly that classification's counter. -/
theorem clsCount_addMove_same (c : ColorAcc) (cls : Classification) (pr : Int × Int) :
    clsCount (addMove c cls pr) cls = clsCount c cls + 1 := by
  cases cls <;> rfl

/-- Adding a classified move leaves every other counter unchanged. -/
theorem clsCount_addMove_other (c : ColorAcc) (cls c' : Classification)
    (pr : Int × Int) (h : c' ≠ cls) :
    clsCount (addMove c cls pr) c' = clsCount c c' := by
  cases cls <;> cases c' <;> simp_all [addMove, clsCount]

/-- One loop step preserves the counters-vs-pairs invariant. -/
theorem loopStep_inv (b : Bool) (acc : LoopAcc) (p : PlyInput) (acc' : LoopAcc)
    (h : loopStep b acc p = .ok acc') (hinv : InvAcc acc) : InvAcc acc' := by
  unfold loopStep at h
  by_cases hib : (b && p.inBook) = true
  · rw [if_pos hib] at h
    injection h with h
    subst h
    rcases hinv with ⟨h1, h2⟩
    split
    · exact ⟨h1, h2⟩
    · exact ⟨h1, h2⟩
  · rw [if_neg hib] at h
    rcases hb : p.infoBefore with e | sb
    · rw [hb] at h; cases h
    · rw [hb] at h
      rcases ha : p.infoAfter with e | sa
      · rw [ha] at h; cases h
      · rw [ha] at h
        injection h with h
        subst h
        rcases hinv with ⟨h1, h2⟩
        split
        · refine ⟨?_, h2⟩
          show clsSum (addMove acc.white _ _) = (addMove acc.white _ _).eval_pairs.length
          rw [clsSum_addMove, pairs_addMove]
          simp [h1]
        · refine ⟨h1, ?_⟩
          show clsSum (addMove acc.black _ _) = (addMove acc.black _ _).eval_pairs.length
          rw [clsSum_addMove, pairs_addMove]
          simp [h2]

/-- The move loop preserves the counters-vs-pairs invariant. -/
theorem moveLoop_inv (b : Bool) (ps : List PlyInput) :
    ∀ acc acc', moveLoop b ps acc = .ok acc' → InvAcc acc → InvAcc acc' := by
  induction ps with
  | nil =>
    intro acc acc' h hi
    unfold moveLoop at h
    injection h with h
    exact h ▸ hi
  | cons p ps ih =>
    intro acc acc' h hi
    unfold moveLoop at h
    rcases hs : loopStep b acc p with e | acc1
    · rw [hs] at h; cases h
    · rw [hs] at h
      exact ih acc1 acc' h (loopStep_inv b acc p acc1 hs hi)

/-- Every result of `analyse_game` carries the input filename (success,
empty-game and failure paths all set it). -/
theorem analyse_game_filename (fn : String) (w : World) :
    ((analyse_game fn w).1).filename = fn := by
  rcases w with ⟨rr, bp, bof, esf⟩
  cases rr with
  | raise => rfl
  | noGame => rfl
  | game g =>
    unfold analyse_game analyse_game_body
    dsimp only
    by_cases h1 : (bp && bof) = true
    · rw [if_pos h1]; rfl
    · rw [if_neg h1]
      by_cases h2 : esf = true
      · simp only [h2, if_true]; rfl
      · simp only [h2, if_false]
        rcases hl : moveLoop bp g.plies initAcc with e | acc
        · rfl
        · rfl

/-- C2: whenever the body of `analyse_game` raises (malformed record, book
open failure, engine launch failure, engine failure inside the move loop)
or the record parses to no game, `analyse_game` does not propagate the
error: it returns the placeholder `GameStats` carrying the input filename,
with empty player names, `"unknown"` strings and zeroes in every other
column, so the batch never aborts because one game failed. -/
theorem failure_isolated_to_placeholder :
    ∀ (fn : String) (w : World),
      ((analyse_game_body fn w).1 = .error () ∨ w.readResult = .noGame) →
      (analyse_game fn w).1 =
        ⟨fn, "", "", 0, 0, "unknown", "unknown", 0,
         0, 0, 0, 0, 0, 0, 0, 0, 0, 0, 0, 0, 0, 0, 0, 0⟩ := by
  intro fn w h
  rcases hr : w.readResult with _ | _ | g
  · unfold analyse_game analyse_game_body
    rw [hr]
    rfl
  · unfold analyse_game analyse_game_body
    rw [hr]
    rfl
  · have h' : (analyse_game_body fn w).1 = .error () := by
      rcases h with h | h
      · exact h
      · rw [hr] at h; cases h
    unfold analyse_game
    rcases hb : analyse_game_body fn w with ⟨res, st⟩
    rw [hb] at h'
    cases res with
    | error e => rfl
    | ok gs => simp at h'

/-- Witness for C2: a world where reading the PGN raises. -/
theorem failure_isolated_to_placeholder_witness :
    ((analyse_game_body "bad.pgn" ⟨.raise, false, false, false⟩).1 = .error ()
      ∨ (⟨.raise, false, false, false⟩ : World).readResult = .noGame)
    ∧ (analyse_game "bad.pgn" ⟨.raise, false, false, false⟩).1 =
        ⟨"bad.pgn", "", "", 0, 0, "unknown", "unknown", 0,
         0, 0, 0, 0, 0, 0, 0, 0, 0, 0, 0, 0, 0, 0, 0, 0⟩ :=
  ⟨Or.inl rfl,
    failure_isolated_to_placeholder "bad.pgn" ⟨.raise, false, false, false⟩ (Or.inl rfl)⟩

/-- C3 (code bug): when the engine session was started and an exception is
raised during the move loop, control jumps to the outer `except` and
`engine.quit()` on line 367 is never executed — the source lacks a
`try/finally`, so on the failure path the engine is stopped zero times,
not exactly once (on the success path it is stopped once). -/
theorem engine_quit_skipped_on_failure :
    ((analyse_game "game.pgn" engineCrashWorld).2.engineStarted = true
      ∧ (analyse_game "game.pgn" engineCrashWorld).2.engineQuits = 0)
    ∧ (analyse_game "game.pgn" emptyGameWorld).2.engineQuits = 1 :=
  ⟨⟨rfl, rfl⟩, rfl⟩

/-- C6: for every input world — in particular for every successful
analysis — the produced `GameStats` satisfies, for each colour
independently, `best + good + inaccuracy + mistake + blunder + book ==
total_moves`: each ply by that colour bumps either the book counter or
exactly one classification counter together with one eval pair, and the
total is the pair count plus the book count. -/
theorem class_counts_sum_to_total :
    ∀ (fn : String) (w : World),
      ((analyse_game fn w).1.white_best_moves + (analyse_game fn w).1.white_good_moves +
        (analyse_game fn w).1.white_inaccuracies + (analyse_game fn w).1.white_mistakes +
        (analyse_game fn w).1.white_blunders + (analyse_game fn w).1.white_book_moves =
        (analyse_game fn w).1.white_total_moves)
      ∧ ((analyse_game fn w).1.black_best_moves + (analyse_game fn w).1.black_good_moves +
        (analyse_game fn w).1.black_inaccuracies + (analyse_game fn w).1.black_mistakes +
        (analyse_game fn w).1.black_blunders + (analyse_game fn w).1.black_book_moves =
        (analyse_game fn w).1.black_total_moves) := by
  intro fn w
  rcases w with ⟨rr, bp, bof, esf⟩
  cases rr with
  | raise => exact ⟨rfl, rfl⟩
  | noGame => exact ⟨rfl, rfl⟩
  | game g =>
    unfold analyse_game analyse_game_body
    dsimp only
    by_cases h1 : (bp && bof) = true
    · rw [if_pos h1]; exact ⟨rfl, rfl⟩
    · rw [if_neg h1]
      by_cases h2 : esf = true
      · rw [if_pos h2]; exact ⟨rfl, rfl⟩
      · rw [if_neg h2]
        rcases hl : moveLoop bp g.plies initAcc with e | acc
        · exact ⟨rfl, rfl⟩
        · have hinv : InvAcc acc := moveLoop_inv bp g.plies initAcc acc hl ⟨rfl, rfl⟩
          rcases hinv with ⟨h1', h2'⟩
          simp only [clsSum] at h1' h2'
          constructor <;> dsimp only <;> omega

/-- C5: the classification thresholds are inclusive with first match
winning (`classify(10)=best, classify(11)=good, classify(25)=good,
classify(26)=inaccuracy, classify(50)=inaccuracy, classify(51)=mistake,
classify(100)=mistake, classify(101)=blunder`), and for every non-book
move the loss is `evalBefore - evalAfter` for White and
`evalAfter - evalBefore` for Black, clamped at 0; exactly the mover's
counter for the resulting class is bumped, the mover's eval pair is
appended (negated for Black), and nothing else changes. -/
theorem per_move_loss_and_classification :
    (classify_move 10 = .best ∧ classify_move 11 = .good ∧ classify_move 25 = .good
      ∧ classify_move 26 = .inaccuracy ∧ classify_move 50 = .inaccuracy
      ∧ classify_move 51 = .mistake ∧ classify_move 100 = .mistake
      ∧ classify_move 101 = .blunder)
    ∧ ∀ (bookOpened ib : Bool) (acc : LoopAcc) (sb sa : Score),
        (bookOpened && ib) = false →
        ∃ acc',
          loopStep bookOpened acc ⟨ib, .ok sb, .ok sa⟩ = .ok acc' ∧
          acc'.move_number = acc.move_number + 1 ∧
          (((acc.move_number + 1) % 2 == 1) = true →
            acc'.white.eval_pairs = acc.white.eval_pairs ++
              [(get_eval_centipawns sb, Score.scoreWithMateScore sa 10000)] ∧
            acc'.black = acc.black ∧
            acc'.white.book_moves = acc.white.book_moves ∧
            clsCount acc'.white
                (classify_move (max 0 (get_eval_centipawns sb - Score.scoreWithMateScore sa 10000))) =
              clsCount acc.white
                (classify_move (max 0 (get_eval_centipawns sb - Score.scoreWithMateScore sa 10000))) + 1 ∧
            (∀ c, c ≠ classify_move (max 0 (get_eval_centipawns sb - Score.scoreWithMateScore sa 10000)) →
              clsCount acc'.white c = clsCount acc.white c)) ∧
          (((acc.move_number + 1) % 2 == 1) = false →
            acc'.black.eval_pairs = acc.black.eval_pairs ++
              [(-get_eval_centipawns sb, -Score.scoreWithMateScore sa 10000)] ∧
            acc'.white = acc.white ∧
            acc'.black.book_moves = acc.black.book_moves ∧
            clsCount acc'.black
                (classify_move (max 0 (Score.scoreWithMateScore sa 10000 - get_eval_centipawns sb))) =
              clsCount acc.black
                (classify_move (max 0 (Score.scoreWithMateScore sa 10000 - get_eval_centipawns sb))) + 1 ∧
            (∀ c, c ≠ classify_move (max 0 (Score.scoreWithMateScore sa 10000 - get_eval_centipawns sb)) →
              clsCount acc'.black c = clsCount acc.black c)) := by
  constructor
  · exact ⟨rfl, rfl, rfl, rfl, rfl, rfl, rfl, rfl⟩
  · intro bo ib acc sb sa hb
    have hstep : loopStep bo acc ⟨ib, .ok sb, .ok sa⟩ =
        .ok (if ((acc.move_number + 1) % 2 == 1) = true then
              { acc with
                move_number := acc.move_number + 1
                white := addMove acc.white
                  (classify_move (max 0 (get_eval_centipawns sb - Score.scoreWithMateScore sa 10000)))
                  (get_eval_centipawns sb, Score.scoreWithMateScore sa 10000) }
            else
              { acc with
                move_number := acc.move_number + 1
                black := addMove acc.black
                  (classify_move (max 0 (Score.scoreWithMateScore sa 10000 - get_eval_centipawns sb)))
                  (-get_eval_centipawns sb, -Score.scoreWithMateScore sa 10000) }) := by
      unfold loopStep
      dsimp only
      rw [hb]
      simp only [Bool.false_eq_true, if_false]
      by_cases hw : ((acc.move_number + 1) % 2 == 1) = true
      · simp [hw]
      · simp [hw]
    refine ⟨_, hstep, ?_, ?_, ?_⟩
    · split <;> rfl
    · intro hw
      rw [if_pos hw]
      exact ⟨pairs_addMove _ _ _, rfl, book_addMove _ _ _, clsCount_addMove_same _ _ _,
        fun c hc => clsCount_addMove_other _ _ _ _ hc⟩
    · intro hw
      rw [if_neg (by simp [hw])]
      exact ⟨pairs_addMove _ _ _, rfl, book_addMove _ _ _, clsCount_addMove_same _ _ _,
        fun c hc => clsCount_addMove_other _ _ _ _ hc⟩

/-- Witness for C5: a concrete non-book White ply with evals `+30` before
and `+10` after (loss 20, classified good). -/
theorem per_move_loss_and_classification_witness :
    (false && false) = false ∧
    ∃ acc',
      loopStep false initAcc ⟨false, .ok (.cp 30), .ok (.cp 10)⟩ = .ok acc' ∧
      acc'.move_number = initAcc.move_number + 1 ∧
      (((initAcc.move_number + 1) % 2 == 1) = true →
        acc'.white.eval_pairs = initAcc.white.eval_pairs ++
          [(get_eval_centipawns (.cp 30), Score.scoreWithMateScore (.cp 10) 10000)] ∧
        acc'.black = initAcc.black ∧
        acc'.white.book_moves = initAcc.white.book_moves ∧
        clsCount acc'.white
            (classify_move (max 0 (get_eval_centipawns (.cp 30) - Score.scoreWithMateScore (.cp 10) 10000))) =
          clsCount initAcc.white
            (classify_move (max 0 (get_eval_centipawns (.cp 30) - Score.scoreWithMateScore (.cp 10) 10000))) + 1 ∧
        (∀ c, c ≠ classify_move (max 0 (get_eval_centipawns (.cp 30) - Score.scoreWithMateScore (.cp 10) 10000)) →
          clsCount acc'.white c = clsCount initAcc.white c)) ∧
      (((initAcc.move_number + 1) % 2 == 1) = false →
        acc'.black.eval_pairs = initAcc.black.eval_pairs ++
          [(-get_eval_centipawns (.cp 30), -Score.scoreWithMateScore (.cp 10) 10000)] ∧
        acc'.white = initAcc.white ∧
        acc'.black.book_moves = initAcc.black.book_moves ∧
        clsCount acc'.black
            (classify_move (max 0 (Score.scoreWithMateScore (.cp 10) 10000 - get_eval_centipawns (.cp 30)))) =
          clsCount initAcc.black
            (classify_move (max 0 (Score.scoreWithMateScore (.cp 10) 10000 - get_eval_centipawns (.cp 30)))) + 1 ∧
        (∀ c, c ≠ classify_move (max 0 (Score.scoreWithMateScore (.cp 10) 10000 - get_eval_centipawns (.cp 30))) →
          clsCount acc'.black c = clsCount initAcc.black c)) :=
  ⟨rfl, per_move_loss_and_classification.2 false false initAcc (.cp 30) (.cp 10) rfl⟩

/-- Splitting never yields the empty list of pieces. -/
theorem splitChars_ne_nil (sep : Char) (l : List Char) : splitChars sep l ≠ [] := by
  cases l with
  | nil => simp [splitChars]
  | cons c cs =>
    unfold splitChars
    rcases h : splitChars sep cs with _ | ⟨p, ps⟩
    · simp
    · by_cases hc : c = sep <;> simp [hc]

/-- Unfolding equation of `splitChars` on a cons cell. -/
theorem splitChars_cons (sep c : Char) (cs : List Char) :
    splitChars sep (c :: cs) =
      match splitChars sep cs with
      | [] => [[c]]
      | p :: ps => if c = sep then [] :: p :: ps else (c :: p) :: ps := rfl

/-- Splitting a string that starts with a separator-free prefix followed by
the separator yields that prefix as the first piece. -/
theorem splitChars_append (sep : Char) (xs ys : List Char) (h : sep ∉ xs) :
    splitChars sep (xs ++ sep :: ys) = xs :: splitChars sep ys := by
  induction xs with
  | nil =>
    simp only [List.nil_append, splitChars_cons]
    rcases hy : splitChars sep ys with _ | ⟨p, ps⟩
    · exact absurd hy (splitChars_ne_nil sep ys)
    · simp
  | cons x xs ih =>
    have hx : x ≠ sep := fun hh => h (by simp [hh])
    have h' : sep ∉ xs := fun hh => h (List.mem_cons_of_mem _ hh)
    simp only [List.cons_append, splitChars_cons]
    rw [ih h']
    simp [hx]

/-- Column 1 of a formatted output row, as `load_processed_files` extracts
it, is exactly the row's filename (for tab-free, whitespace-trimmed
filenames). -/
theorem extract_formatRow (serializeTail : GameStats → String) (gs : GameStats)
    (h1 : '\t' ∉ gs.filename.data) (h2 : pyStrip gs.filename = gs.filename) :
    pyStrip ((pySplit '\t' (formatRow serializeTail gs)).headD "") = gs.filename := by
  have hd : (formatRow serializeTail gs).data =
      gs.filename.data ++ '\t' :: (serializeTail gs).data := by
    simp [formatRow, String.data_append]
  unfold pySplit
  rw [hd, splitChars_append _ _ _ h1]
  simpa using h2

/-- Behaviour of the orchestrator on a non-empty directory listing,
unfolded to one conditional. -/
theorem analyse_all_games_run (serializeTail : GameStats → String)
    (results : String → GameStats) (schedule : List String → List String)
    (all_pgn_files : List String) (output : Option (List String))
    (h1 : all_pgn_files ≠ []) :
    analyse_all_games serializeTail results schedule all_pgn_files output =
      (if all_pgn_files.filter
            (fun f => decide (f ∉ load_processed_files output)) = [] then output
       else some ((match output with
            | none => [header_line]
            | some lines => lines) ++
          (schedule (all_pgn_files.filter
            (fun f => decide (f ∉ load_processed_files output)))).map
              (fun n => formatRow serializeTail (results n)))) := by
  unfold analyse_all_games
  rw [if_neg h1]

/-- Orchestrator on an empty directory listing: unchanged output. -/
theorem analyse_all_games_empty (serializeTail : GameStats → String)
    (results : String → GameStats) (schedule : List String → List String)
    (output : Option (List String)) :
    analyse_all_games serializeTail results schedule [] output = output := by
  unfold analyse_all_games
  rw [if_pos rfl]

/-- Core resumability argument of `analyse_all_games`, for any per-file
results function that carries its filename in column 1. -/
theorem analyse_all_games_fixpoint (serializeTail : GameStats → String)
    (results : String → GameStats) (schedule : List String → List String)
    (all_pgn_files : List String) (output : Option (List String))
    (Hres : ∀ n, (results n).filename = n)
    (Hsched : ∀ l, List.Perm (schedule l) l)
    (Hgood : ∀ n ∈ all_pgn_files, n ≠ "" ∧ pyStrip n = n ∧ '\t' ∉ n.data)
    (Hout : output = none ∨ ∃ l ls, output = some (l :: ls)) :
    analyse_all_games serializeTail results schedule all_pgn_files
        (analyse_all_games serializeTail results schedule all_pgn_files output) =
      analyse_all_games serializeTail results schedule all_pgn_files output
    ∧ (∀ n ∈ all_pgn_files,
        n ∈ load_processed_files
          (analyse_all_games serializeTail results schedule all_pgn_files output))
    ∧ (output = none →
        analyse_all_games serializeTail results schedule all_pgn_files output = none ∨
          ∃ rows, analyse_all_games serializeTail results schedule all_pgn_files output =
            some (header_line :: rows))
    ∧ (∀ lines, output = some lines →
        ∃ rows, analyse_all_games serializeTail results schedule all_pgn_files output =
          some (lines ++ rows)) := by
  by_cases hall : all_pgn_files = []
  · subst hall
    simp only [analyse_all_games_empty]
    refine ⟨trivial, ?_, ?_, ?_⟩
    · intro n hn; simp at hn
    · intro h; exact Or.inl h
    · intro lines h; exact ⟨[], by rw [h]; simp⟩
  · have hrun := analyse_all_games_run serializeTail results schedule all_pgn_files output hall
    by_cases hfil : all_pgn_files.filter
        (fun f => decide (f ∉ load_processed_files output)) = []
    · rw [if_pos hfil] at hrun
      have hmem : ∀ n ∈ all_pgn_files, n ∈ load_processed_files output := by
        intro n hn
        have := List.filter_eq_nil_iff.mp hfil n hn
        simpa using this
      refine ⟨?_, ?_, ?_, ?_⟩
      · rw [hrun]; exact hrun
      · intro n hn; rw [hrun]; exact hmem n hn
      · intro h; rw [hrun]; exact Or.inl h
      · intro lines h; exact ⟨[], by rw [hrun, h]; simp⟩
    · rw [if_neg hfil] at hrun
      have hrowext : ∀ n ∈ all_pgn_files.filter
            (fun f => decide (f ∉ load_processed_files output)),
          pyStrip ((pySplit '\t' (formatRow serializeTail (results n))).headD "") = n := by
        intro n hn
        have hnall : n ∈ all_pgn_files := (List.mem_filter.mp hn).1
        obtain ⟨hne, hstrip, htab⟩ := Hgood n hnall
        have hext := extract_formatRow serializeTail (results n)
          (by rw [Hres n]; exact htab) (by rw [Hres n, hstrip])
        rw [Hres n] at hext
        exact hext
      have hinrows : ∀ n ∈ all_pgn_files.filter
            (fun f => decide (f ∉ load_processed_files output)),
          n ∈ ((schedule (all_pgn_files.filter
              (fun f => decide (f ∉ load_processed_files output)))).map
            (fun m => formatRow serializeTail (results m))).map
              (fun line => pyStrip ((pySplit '\t' line).headD "")) := by
        intro n hn
        rw [List.map_map]
        exact List.mem_map.mpr ⟨n, (Hsched _).mem_iff.mpr hn, hrowext n hn⟩
      rcases Hout with hout | ⟨l, ls, hout⟩
      · subst hout
        have hrun' : analyse_all_games serializeTail results schedule all_pgn_files none =
            some (header_line :: (schedule (all_pgn_files.filter
              (fun f => decide (f ∉ load_processed_files none)))).map
                (fun n => formatRow serializeTail (results n))) := hrun
        have hload : ∀ n ∈ all_pgn_files,
            n ∈ load_processed_files (some (header_line :: (schedule (all_pgn_files.filter
              (fun f => decide (f ∉ load_processed_files none)))).map
                (fun n => formatRow serializeTail (results n)))) := by
          intro n hn
          have hnF : n ∈ all_pgn_files.filter
              (fun f => decide (f ∉ load_processed_files none)) :=
            List.mem_filter.mpr ⟨hn, by simp [load_processed_files]⟩
          exact List.mem_filter.mpr ⟨hinrows n hnF, by simp [(Hgood n hn).1]⟩
        have hfix : analyse_all_games serializeTail results schedule all_pgn_files
            (some (header_line :: (schedule (all_pgn_files.filter
              (fun f => decide (f ∉ load_processed_files none)))).map
                (fun n => formatRow serializeTail (results n)))) =
            some (header_line :: (schedule (all_pgn_files.filter
              (fun f => decide (f ∉ load_processed_files none)))).map
                (fun n => formatRow serializeTail (results n))) := by
          rw [analyse_all_games_run serializeTail results schedule all_pgn_files _ hall]
          rw [if_pos (List.filter_eq_nil_iff.mpr
            (fun a ha h => absurd (hload a ha) (of_decide_eq_true h)))]
        refine ⟨?_, ?_, ?_, ?_⟩
        · rw [hrun']; exact hfix
        · intro n hn; rw [hrun']; exact hload n hn
        · intro h
          exact Or.inr ⟨_, hrun'⟩
        · intro lines h; exact absurd h (by simp)
      · subst hout
        have hrun' : analyse_all_games serializeTail results schedule all_pgn_files
            (some (l :: ls)) =
            some ((l :: ls) ++ (schedule (all_pgn_files.filter
              (fun f => decide (f ∉ load_processed_files (some (l :: ls)))))).map
                (fun n => formatRow serializeTail (results n))) := hrun
        have hload : ∀ n ∈ all_pgn_files,
            n ∈ load_processed_files (some ((l :: ls) ++ (schedule (all_pgn_files.filter
              (fun f => decide (f ∉ load_processed_files (some (l :: ls)))))).map
                (fun n => formatRow serializeTail (results n)))) := by
          intro n hn
          by_cases hp : n ∈ load_processed_files (some (l :: ls))
          · have hp' := List.mem_filter.mp hp
            refine List.mem_filter.mpr ⟨?_, hp'.2⟩
            show n ∈ (ls ++ (schedule (all_pgn_files.filter
                (fun f => decide (f ∉ load_processed_files (some (l :: ls)))))).map
                  (fun n => formatRow serializeTail (results n))).map
                (fun line => pyStrip ((pySplit '\t' line).headD ""))
            rw [List.map_append]
            exact List.mem_append_left _ hp'.1
          · have hnF : n ∈ all_pgn_files.filter
                (fun f => decide (f ∉ load_processed_files (some (l :: ls)))) :=
              List.mem_filter.mpr ⟨hn, by simp [hp]⟩
            refine List.mem_filter.mpr ⟨?_, by simp [(Hgood n hn).1]⟩
            show n ∈ (ls ++ (schedule (all_pgn_files.filter
                (fun f => decide (f ∉ load_processed_files (some (l :: ls)))))).map
                  (fun n => formatRow serializeTail (results n))).map
                (fun line => pyStrip ((pySplit '\t' line).headD ""))
            rw [List.map_append]
            exact List.mem_append_right _ (hinrows n hnF)
        have hfix : analyse_all_games serializeTail results schedule all_pgn_files
            (some ((l :: ls) ++ (schedule (all_pgn_files.filter
              (fun f => decide (f ∉ load_processed_files (some (l :: ls)))))).map
                (fun n => formatRow serializeTail (results n)))) =
            some ((l :: ls) ++ (schedule (all_pgn_files.filter
              (fun f => decide (f ∉ load_processed_files (some (l :: ls)))))).map
                (fun n => formatRow serializeTail (results n))) := by
          rw [analyse_all_games_run serializeTail results schedule all_pgn_files _ hall]
          rw [if_pos (List.filter_eq_nil_iff.mpr
            (fun a ha h => absurd (hload a ha) (of_decide_eq_true h)))]
        refine ⟨?_, ?_, ?_, ?_⟩
        · rw [hrun']; exact hfix
        · intro n hn; rw [hrun']; exact hload n hn
        · intro h; exact absurd h (by simp)
        · intro lines h
          have hl : lines = l :: ls := by injection h with h'; exact h'.symm
          subst hl
          exact ⟨_, hrun'⟩

/-- C1: running the batch orchestrator a second time over the same
directory listing and the output file produced by the first run leaves the
output file byte-identical (the second run is a no-op on it), because every
discovered filename is already in the Resume Set read from column 1 of
that file; moreover the header row is written only when the output file
did not already exist (an existing file is only ever appended to).
Hypotheses: the workers' completion order is some permutation of the
dispatched files, filenames are non-empty, whitespace-trimmed and
tab-free, and a pre-existing output file is non-empty (its first line is
skipped as the header). -/
theorem orchestrator_resumable (serializeTail : GameStats → String)
    (worlds : String → World) (schedule : List String → List String)
    (all_pgn_files : List String) (output : Option (List String))
    (Hsched : ∀ l, List.Perm (schedule l) l)
    (Hgood : ∀ n ∈ all_pgn_files, n ≠ "" ∧ pyStrip n = n ∧ '\t' ∉ n.data)
    (Hout : output = none ∨ ∃ l ls, output = some (l :: ls)) :
    analyse_all_games serializeTail (fun n => (analyse_game n (worlds n)).1) schedule
        all_pgn_files
        (analyse_all_games serializeTail (fun n => (analyse_game n (worlds n)).1) schedule
          all_pgn_files output) =
      analyse_all_games serializeTail (fun n => (analyse_game n (worlds n)).1) schedule
        all_pgn_files output
    ∧ (∀ n ∈ all_pgn_files,
        n ∈ load_processed_files
          (analyse_all_games serializeTail (fun n => (analyse_game n (worlds n)).1) schedule
            all_pgn_files output))
    ∧ (output = none →
        analyse_all_games serializeTail (fun n => (analyse_game n (worlds n)).1) schedule
            all_pgn_files output = none ∨
          ∃ rows, analyse_all_games serializeTail (fun n => (analyse_game n (worlds n)).1)
              schedule all_pgn_files output = some (header_line :: rows))
    ∧ (∀ lines, output = some lines →
        ∃ rows, analyse_all_games serializeTail (fun n => (analyse_game n (worlds n)).1)
            schedule all_pgn_files output = some (lines ++ rows)) :=
  analyse_all_games_fixpoint serializeTail (fun n => (analyse_game n (worlds n)).1)
    schedule all_pgn_files output (fun n => analyse_game_filename n (worlds n))
    Hsched Hgood Hout

/-- Witness for C1: a one-file directory, empty-record worlds, identity
completion order, no pre-existing output file. -/
theorem orchestrator_resumable_witness :
    (∀ l : List String, List.Perm ((fun l => l) l) l)
    ∧ (∀ n ∈ ["a.pgn"], n ≠ "" ∧ pyStrip n = n ∧ '\t' ∉ n.data)
    ∧ ((none : Option (List String)) = none ∨
        ∃ l ls, (none : Option (List String)) = some (l :: ls))
    ∧ (analyse_all_games (fun _ => "")
        (fun n => (analyse_game n ((fun _ => (⟨.noGame, false, false, false⟩ : World)) n)).1)
        (fun l => l) ["a.pgn"]
        (analyse_all_games (fun _ => "")
          (fun n => (analyse_game n ((fun _ => (⟨.noGame, false, false, false⟩ : World)) n)).1)
          (fun l => l) ["a.pgn"] none) =
      analyse_all_games (fun _ => "")
        (fun n => (analyse_game n ((fun _ => (⟨.noGame, false, false, false⟩ : World)) n)).1)
        (fun l => l) ["a.pgn"] none) :=
  ⟨fun l => List.Perm.refl l, by decide, Or.inl rfl,
    (orchestrator_resumable (fun _ => "") (fun _ => ⟨.noGame, false, false, false⟩)
      (fun l => l) ["a.pgn"] none (fun l => List.Perm.refl l) (by decide)
      (Or.inl rfl)).1⟩

end ChessTools
